import Mathlib

/-!
Shallow embedding of `solution/anonymous_bounded_voting/src/verifier.rs`
(WeDPR-Lab-Core anonymous bounded voting verifier) and proofs about it.

Modelling conventions, fixed once for the whole file:

* The Ristretto group used by the source (`curve25519_dalek::RistrettoPoint`)
  is a cyclic group of prime order; it is modelled as `ZMod lorder` with
  `lorder` the order of the Ristretto group.  `RistrettoPoint::default()` is
  the identity element, modelled as `0`.  `BASEPOINT_G1` is a fixed
  generator, modelled as `1`; `BASEPOINT_G2` is another fixed public point.
  Scalar multiplication `point * Scalar::from(n)` is modelled as
  multiplication by the natural-number cast `(n : GE)` (with `G1 = 1` the
  discrete logarithm of a point is the point itself under the isomorphism).
* Byte strings holding encoded group elements are modelled by `PtBytes`:
  `PtBytes.enc p` is the canonical encoding `point_to_bytes p`,
  `PtBytes.empty` is the empty byte string (the protobuf default for an
  unset `bytes` field), and `PtBytes.bad tag` stands for any other
  malformed byte string.
* Byte strings holding encoded protobuf proof records are modelled by
  `PrBytes α`: `PrBytes.enc a` parses to the record `a`, `PrBytes.bad`
  does not parse.
* All other byte strings (signatures, public keys, hashes, serialized
  range proofs, which the source only passes through to external
  primitives) are modelled by the opaque list type `Bytes`.
* The external cryptographic primitives (hashing, signature verification
  and the four zero-knowledge-proof verifiers) are out of scope for the
  repository (spec section 6); the verifier orchestration is proved for an
  arbitrary assignment `Primitives` of those functions.
* Fallible Rust functions returning `Result<T, WedprError>` become
  `Except WedprError T`; the in-place mutation of the running tally in
  `aggregate_vote_sum_response` becomes explicit state passing, the
  function returning the final value of its `vote_sum` argument alongside
  its `Result`.
-/

/-- Order of the Ristretto group (a prime), the group of
`curve25519_dalek::RistrettoPoint`. -/
def lorder : Nat := 7237005577332262213973186563042994240857116359379907606001950938285454250989

/-- Group elements: the Ristretto group modelled as the cyclic group of its
order.  `RistrettoPoint::default()` is the identity `0`. -/
abbrev GE := ZMod lorder

/-- Modelled from the spec: the fixed base generator `BASEPOINT_G1` of the
external group library, modelled as the unit of `ZMod lorder`. -/
def BASEPOINT_G1 : GE := 1

/-- Modelled from the spec: the second fixed public base point
`BASEPOINT_G2` of the external group library. -/
def BASEPOINT_G2 : GE := 2

/-- Error type of `wedpr_l_utils::error::WedprError`, restricted to the
variants reachable from the verifier: proof/signature failure
(`VerificationError`), malformed point bytes (`FormatError`, returned by
`bytes_to_point`) and malformed protobuf bytes (`DecodeError`, returned by
`bytes_to_proto`). -/
inductive WedprError where
  | VerificationError : WedprError
  | FormatError : WedprError
  | DecodeError : WedprError
deriving DecidableEq, Repr

instance {ε α : Type} [DecidableEq ε] [DecidableEq α] : DecidableEq (Except ε α) := fun a b =>
  match a, b with
  | .ok x, .ok y => if h : x = y then .isTrue (by rw [h]) else .isFalse (by simp [h])
  | .error x, .error y => if h : x = y then .isTrue (by rw [h]) else .isFalse (by simp [h])
  | .ok _, .error _ => .isFalse (by simp)
  | .error _, .ok _ => .isFalse (by simp)

/-- Opaque byte strings (signatures, keys, hashes, serialized range proofs):
the verifier only passes them to external primitives. -/
abbrev Bytes := List Nat

/-- Byte strings that the verifier decodes into group elements.
`enc p` is the canonical 32-byte encoding of the point `p`; `empty` is the
empty byte string (protobuf default of an unset `bytes` field); `bad tag`
is any other malformed byte string. -/
inductive PtBytes where
  | empty : PtBytes
  | enc (p : GE) : PtBytes
  | bad (tag : Nat) : PtBytes
deriving DecidableEq

/-- Modelled from the spec: `wedpr_l_crypto_zkp_utils::bytes_to_point`
(spec section 6, `decode_point`).  Decoding is total and fails closed:
only a canonical encoding decodes, and it round-trips exactly; the empty
byte string and any other malformed byte string are rejected with
`FormatError`.  (The real function rejects any input that is not a valid
32-byte Ristretto compression; the protobuf default empty string in
particular.) -/
def bytes_to_point : PtBytes → Except WedprError GE
  | .enc p => .ok p
  | .empty => .error .FormatError
  | .bad _ => .error .FormatError

/-- Modelled from the spec: `wedpr_l_crypto_zkp_utils::point_to_bytes`
(spec section 6, `encode_point`): the canonical encoding. -/
def point_to_bytes (p : GE) : PtBytes := .enc p

/-- True exactly when the bytes decode successfully into a group element. -/
def decodable : PtBytes → Bool
  | .enc _ => true
  | _ => false

/-- The group element a byte string decodes to (junk value `0` on
malformed bytes; only used in theorem statements under a `decodable`
hypothesis). -/
def decP : PtBytes → GE
  | .enc p => p
  | _ => 0

/-- Byte strings holding a serialized protobuf proof record of type `α`.
`enc a` parses to `a` (the empty byte string parses to the default
record); `bad` stands for unparseable bytes. -/
inductive PrBytes (α : Type) where
  | enc (a : α) : PrBytes α
  | bad : PrBytes α
deriving DecidableEq

/-- Modelled from the spec: `wedpr_l_protos::bytes_to_proto` (spec
section 6, `decode_proof_record`), failing closed on unparseable bytes. -/
def bytes_to_proto {α : Type} : PrBytes α → Except WedprError α
  | .enc a => .ok a
  | .bad => .error .DecodeError

/-- The protobuf record `wedpr_l_protos::generated::zkp::BalanceProof`
(format proofs and the sum-relationship proof).  Its internal fields are
only read by the external proof verifiers, so it is modelled opaquely. -/
structure BalanceProof where
  tag : Nat := 0
deriving DecidableEq

/-- The protobuf record `wedpr_l_protos::generated::zkp::EqualityProof`,
modelled opaquely (only read by the external equality verifier). -/
structure EqualityProof where
  tag : Nat := 0
deriving DecidableEq

/-- The protobuf message `abv::Ballot`: a ciphertext pair `(c1, c2)`,
each stored as encoded point bytes. -/
structure Ballot where
  ciphertext1 : PtBytes
  ciphertext2 : PtBytes
deriving DecidableEq

/-- `Ballot::new()` / the protobuf default ballot: both byte fields empty. -/
def Ballot.new : Ballot := ⟨.empty, .empty⟩

/-- The protobuf message `abv::CandidateBallot`: a candidate identifier
paired with a ballot. -/
structure CandidateBallot where
  candidate : String
  ballot : Ballot
deriving DecidableEq

/-- `CandidateBallot::new()`: default candidate (empty string) and ballot. -/
def CandidateBallot.new : CandidateBallot := ⟨"", Ballot.new⟩

/-- The protobuf message `abv::VoteStorage`.  Message-typed fields are
`Option`s so that `has_blank_ballot()` (presence) is expressible; the
getters below supply the protobuf default when the field is unset. -/
structure VoteStorage where
  signature : Bytes
  blank_ballot : Option Ballot
  rest_ballot : Option Ballot
  voted_ballot : List CandidateBallot
deriving DecidableEq

/-- `VoteStorage::new()`: all fields at their protobuf defaults. -/
def VoteStorage.new : VoteStorage := ⟨[], none, none, []⟩

/-- Getter `get_blank_ballot()`: the field, or the default ballot when unset. -/
def VoteStorage.get_blank_ballot (s : VoteStorage) : Ballot := s.blank_ballot.getD Ballot.new

/-- Getter `get_rest_ballot()`: the field, or the default ballot when unset. -/
def VoteStorage.get_rest_ballot (s : VoteStorage) : Ballot := s.rest_ballot.getD Ballot.new

/-- `has_blank_ballot()`: presence of the optional field. -/
def VoteStorage.has_blank_ballot (s : VoteStorage) : Bool := s.blank_ballot.isSome

/-- One entry of `VoteRequest.ballot_proof`: a candidate identifier keyed
to that candidate's format proof (`abv::StringToBallotProofPair`, whose
`value` is an `abv::BallotProof` holding serialized proof bytes). -/
structure BallotProofPair where
  candidate : String
  format_proof : PrBytes BalanceProof
deriving DecidableEq

/-- The protobuf message `abv::VoteRequest`. -/
structure VoteRequest where
  vote : VoteStorage
  range_proof : Bytes
  ballot_proof : List BallotProofPair
  sum_balance_proof : PrBytes BalanceProof
deriving DecidableEq

/-- The protobuf message `abv::CandidateList` inside the system
parameters: the ordered list of configured candidate identifiers. -/
structure CandidateList where
  candidate : List String
deriving DecidableEq

/-- The protobuf message `abv::SystemParametersStorage`: the configured
candidates and the election's poll point (encoded). -/
structure SystemParametersStorage where
  candidates : CandidateList
  poll_point : PtBytes
deriving DecidableEq

/-- Getter `get_candidates()`. -/
def SystemParametersStorage.get_candidates (p : SystemParametersStorage) : CandidateList :=
  p.candidates

/-- The protobuf message `abv::CountingPart`: one counting authority's
partial decryption `c2_r` of a slot plus its equality proof. -/
structure CountingPart where
  c2_r : PtBytes
  equality_proof : PrBytes EqualityProof
deriving DecidableEq

/-- `CountingPart::new()` / the protobuf default: empty `c2_r` bytes and
empty proof bytes (empty protobuf bytes parse to the default record). -/
def CountingPart.new : CountingPart := ⟨.empty, .enc {}⟩

/-- One entry of `DecryptedResultPartStorage.candidate_part`
(`abv::StringToCountingPartPair`). -/
structure CountingPartPair where
  key : String
  value : CountingPart
deriving DecidableEq

/-- The protobuf message `abv::DecryptedResultPartStorage`. -/
structure DecryptedResultPartStorage where
  blank_part : Option CountingPart
  candidate_part : List CountingPartPair
deriving DecidableEq

/-- Getter `get_blank_part()`: the field, or the default part when unset. -/
def DecryptedResultPartStorage.get_blank_part (s : DecryptedResultPartStorage) : CountingPart :=
  s.blank_part.getD CountingPart.new

/-- One entry of `VoteResultStorage.result` (`abv::StringToInt64Pair`):
a key (the reserved total-ballots key or a candidate identifier) and a
disclosed `i64` result value. -/
structure ResultPair where
  key : String
  value : Int
deriving DecidableEq

/-- The protobuf message `abv::VoteResultStorage`. -/
structure VoteResultStorage where
  result : List ResultPair
deriving DecidableEq

/-- The external cryptographic primitives consumed by the verifier (spec
section 6): keccak hashing, secp256k1 signature verification, and the four
zero-knowledge-proof verifiers.  The verifier's orchestration is proved
for every assignment of these functions.  The hash input
`blank.c1 ++ blank.c2` (two fixed-width encodings concatenated) is in
bijection with the pair of encodings, so `hash` takes the pair. -/
structure Primitives where
  hash : PtBytes × PtBytes → Bytes
  sig_verify : Bytes → Bytes → Bytes → Bool
  verify_value_range_in_batch : List GE → Bytes → GE → Bool
  verify_format_proof : GE → GE → BalanceProof → GE → GE → GE → Bool
  verify_sum_relationship : GE → GE → GE → BalanceProof → GE → GE → Bool
  verify_equality_relationship_proof : GE → GE → EqualityProof → GE → GE → Bool

/-- The linear scan pattern `for pair in list { if pair.candidate == c { x = pair.ballot } }`
used throughout the source: the ballot of the last matching entry, or the
default `Ballot::new()` when no entry matches. -/
def find_last_ballot (c : String) (l : List CandidateBallot) : Ballot :=
  l.foldl (fun acc p => if p.candidate == c then p.ballot else acc) Ballot.new

/-- The analogous scan over `candidate_part` entries: the `CountingPart` of
the last entry whose key matches, or the default `CountingPart::new()`. -/
def find_last_part (c : String) (l : List CountingPartPair) : CountingPart :=
  l.foldl (fun acc p => if p.key == c then p.value else acc) CountingPart.new

/-- The analogous scan over disclosed results: the value of the last entry
whose key matches, or `0`. -/
def find_last_value (c : String) (l : List ResultPair) : Int :=
  l.foldl (fun acc p => if p.key == c then p.value else acc) 0

/-- Fuel-driven floor of the base-2 logarithm (`log2_fuel f n = ⌊log2 n⌋`
whenever `n < 2 ^ f`), structurally recursive so that it evaluates in the
kernel. -/
def log2_fuel : Nat → Nat → Nat
  | 0, _ => 0
  | f + 1, n => if 2 ≤ n then log2_fuel f (n / 2) + 1 else 0

/-- The exponent computed by the source line
`let log_length = (length as f64).log2().ceil() as u32;`, i.e. the ceiling
of the base-2 logarithm: `0` for `length ≤ 1` (for `length = 0` the float
pipeline gives `(-inf).ceil() as u32 = 0` by the saturating cast) and
`⌊log2 (length - 1)⌋ + 1` otherwise.  The `f64` computation is exact for
every value a vector length can take. -/
def ceil_log2 (n : Nat) : Nat := if n ≤ 1 then 0 else log2_fuel n (n - 1) + 1

/-- Embedding of `pending_commitment_vec` (verifier.rs lines 313-325):
pad the commitment vector with copies of `RistrettoPoint::default()` (the
identity) up to the next power-of-two length, leaving it unchanged when
the length is already a power of two.  The in-place mutation of the `Vec`
becomes a returned list. -/
def pending_commitment_vec (v : List GE) : List GE :=
  let length := v.length
  let log_length := ceil_log2 length
  let expected_len := 2 ^ log_length
  if expected_len = length then v
  else v ++ List.replicate (expected_len - length) (0 : GE)

/-- The loop of verifier.rs lines 52-56: decode the `c1` of every voted
ballot in submission order, collecting the decoded commitments and (with a
second decode of the same bytes, as in the source) their running sum
starting from `RistrettoPoint::default()`. -/
def collect_commitments : List CandidateBallot → List GE → GE →
    Except WedprError (List GE × GE)
  | [], acc, sum => .ok (acc, sum)
  | pair :: rest, acc, sum => do
    let c ← bytes_to_point pair.ballot.ciphertext1
    let s ← bytes_to_point pair.ballot.ciphertext1
    collect_commitments rest (acc ++ [c]) (sum + s)

/-- The loop of verifier.rs lines 67-92: for every supplied
`(candidate, proof)` entry, look up the last matching voted ballot
(default `Ballot::new()` when none matches), decode its two ciphertext
components and the format proof, and check the format proof; the first
failing check aborts with `VerificationError`. -/
def format_loop (prims : Primitives) (poll_point : GE) (voted : List CandidateBallot) :
    List BallotProofPair → Except WedprError Unit
  | [] => .ok ()
  | entry :: rest => do
    let candidate_ballot := find_last_ballot entry.candidate voted
    let ciphertext1 ← bytes_to_point candidate_ballot.ciphertext1
    let ciphertext2 ← bytes_to_point candidate_ballot.ciphertext2
    let format_proof ← bytes_to_proto entry.format_proof
    if !prims.verify_format_proof ciphertext1 ciphertext2 format_proof
        BASEPOINT_G1 BASEPOINT_G2 poll_point then
      .error .VerificationError
    else
      format_loop prims poll_point voted rest

/-- Embedding of `verify_bounded_vote_request` (verifier.rs lines 28-107),
with the external primitives abstracted as `prims`.  Decode and check
order follows the source exactly: poll point decode, signature check,
commitment collection, rest-ballot decode, padding, batched range check,
per-entry format checks, balance-proof decode, rest and blank `c1`
decodes, sum-relationship check. -/
def verify_bounded_vote_request (prims : Primitives) (param : SystemParametersStorage)
    (request : VoteRequest) (public_key : Bytes) : Except WedprError Bool := do
  let poll_point ← bytes_to_point param.poll_point
  let signature := request.vote.signature
  let blank_ballot := request.vote.get_blank_ballot
  let message_hash := prims.hash (blank_ballot.ciphertext1, blank_ballot.ciphertext2)
  if !prims.sig_verify public_key message_hash signature then
    .error .VerificationError
  else do
    let (commitments, voted_ballot_sum) ←
      collect_commitments request.vote.voted_ballot [] 0
    let rest_ballot := request.vote.get_rest_ballot.ciphertext1
    let rest_ballot_point ← bytes_to_point rest_ballot
    let commitments := pending_commitment_vec (commitments ++ [rest_ballot_point])
    if !prims.verify_value_range_in_batch commitments request.range_proof poll_point then
      .error .VerificationError
    else do
      format_loop prims poll_point request.vote.voted_ballot request.ballot_proof
      let balance_proof ← bytes_to_proto request.sum_balance_proof
      let rest_point ← bytes_to_point rest_ballot
      let blank_c1 ← bytes_to_point blank_ballot.ciphertext1
      if !prims.verify_sum_relationship voted_ballot_sum rest_point blank_c1
          balance_proof BASEPOINT_G1 poll_point then
        .error .VerificationError
      else
        .ok true

/-- The signature check of verifier.rs lines 34-47 in isolation. -/
def sig_check (prims : Primitives) (request : VoteRequest) (public_key : Bytes) : Bool :=
  prims.sig_verify public_key
    (prims.hash (request.vote.get_blank_ballot.ciphertext1,
      request.vote.get_blank_ballot.ciphertext2))
    request.vote.signature

/-- The batched range check of verifier.rs lines 49-65 in isolation
(given the decoded poll point). -/
def range_check (prims : Primitives) (poll_point : GE) (request : VoteRequest) :
    Except WedprError Bool := do
  let (commitments, _) ← collect_commitments request.vote.voted_ballot [] 0
  let rest_ballot_point ← bytes_to_point request.vote.get_rest_ballot.ciphertext1
  .ok (prims.verify_value_range_in_batch
    (pending_commitment_vec (commitments ++ [rest_ballot_point]))
    request.range_proof poll_point)

/-- The sum-relationship (balance) check of verifier.rs lines 93-105 in
isolation (given the decoded poll point). -/
def balance_check (prims : Primitives) (poll_point : GE) (request : VoteRequest) :
    Except WedprError Bool := do
  let (_, voted_ballot_sum) ← collect_commitments request.vote.voted_ballot [] 0
  let balance_proof ← bytes_to_proto request.sum_balance_proof
  let rest_point ← bytes_to_point request.vote.get_rest_ballot.ciphertext1
  let blank_c1 ← bytes_to_point request.vote.get_blank_ballot.ciphertext1
  .ok (prims.verify_sum_relationship voted_ballot_sum rest_point blank_c1
    balance_proof BASEPOINT_G1 poll_point)

/-- The lazy initialization of verifier.rs lines 114-130: when the running
tally has no blank ballot yet, set its blank ballot to the encoded
identity pair and push one identity-valued `CandidateBallot` per
configured candidate onto its `voted_ballot` list. -/
def lazy_init (param : SystemParametersStorage) (vote_sum : VoteStorage) : VoteStorage :=
  if vote_sum.has_blank_ballot then vote_sum
  else
    { vote_sum with
      blank_ballot := some ⟨point_to_bytes 0, point_to_bytes 0⟩,
      voted_ballot := vote_sum.voted_ballot ++
        param.get_candidates.candidate.map
          (fun c => ⟨c, ⟨point_to_bytes 0, point_to_bytes 0⟩⟩) }

/-- The candidate loop of verifier.rs lines 152-180: for every configured
candidate, decode the last matching ballot of the running tally and the
last matching ballot of the incoming storage (default `Ballot::new()` on
either side when no entry matches), add componentwise, re-encode and
collect the new `CandidateBallot` entries of the temporary sum. -/
def agg_loop (sum_voted part_voted : List CandidateBallot) :
    List String → Except WedprError (List CandidateBallot)
  | [] => .ok []
  | candidate :: rest => do
    let candidate_ballot := find_last_ballot candidate sum_voted
    let c1_sum ← bytes_to_point candidate_ballot.ciphertext1
    let c2_sum ← bytes_to_point candidate_ballot.ciphertext2
    let candidates_ballot := find_last_ballot candidate part_voted
    let pc1 ← bytes_to_point candidates_ballot.ciphertext1
    let pc2 ← bytes_to_point candidates_ballot.ciphertext2
    let tail ← agg_loop sum_voted part_voted rest
    .ok (⟨candidate, ⟨point_to_bytes (c1_sum + pc1), point_to_bytes (c2_sum + pc2)⟩⟩ :: tail)

/-- The fallible body of `aggregate_vote_sum_response` after the lazy
initialization (verifier.rs lines 132-186): decode the blank ballots of
the (initialized) tally and of the incoming storage, sum them, run the
candidate loop, and assemble the temporary `VoteStorage`
(`tmp_vote_storage_sum`, whose signature and rest ballot stay at their
defaults). -/
def aggregate_body (param : SystemParametersStorage) (vote_storage_part vote_sum : VoteStorage) :
    Except WedprError VoteStorage := do
  let blank_c1_sum ← bytes_to_point vote_sum.get_blank_ballot.ciphertext1
  let blank_c2_sum ← bytes_to_point vote_sum.get_blank_ballot.ciphertext2
  let c1_tmp_point ← bytes_to_point vote_storage_part.get_blank_ballot.ciphertext1
  let c2_tmp_point ← bytes_to_point vote_storage_part.get_blank_ballot.ciphertext2
  let voted ← agg_loop vote_sum.voted_ballot vote_storage_part.voted_ballot
    param.get_candidates.candidate
  .ok { signature := [],
        blank_ballot := some ⟨point_to_bytes (blank_c1_sum + c1_tmp_point),
          point_to_bytes (blank_c2_sum + c2_tmp_point)⟩,
        rest_ballot := none,
        voted_ballot := voted }

/-- Embedding of `aggregate_vote_sum_response` (verifier.rs lines
109-189).  The in-place mutation of `vote_sum` becomes state passing: the
returned pair holds the `Result` and the final value of `vote_sum`.  On
success the tally is replaced by the temporary sum (line 187); on an error
the tally keeps the value it had after the lazy initialization, because
the body only writes into the temporary storage. -/
def aggregate_vote_sum_response (param : SystemParametersStorage)
    (vote_storage_part vote_sum : VoteStorage) :
    Except WedprError Bool × VoteStorage :=
  let vs := lazy_init param vote_sum
  match aggregate_body param vote_storage_part vs with
  | .ok tmp => (.ok true, tmp)
  | .error e => (.error e, vs)

/-- The candidate loop of `verify_count_request` (verifier.rs lines
214-244): for every configured candidate, decode the tally's matching
`c2`, find the authority's matching `CountingPart` (default
`CountingPart::new()` when none matches), decode its `c2_r` and equality
proof, and check the equality proof; the first failing check returns
`Ok(false)`. -/
def count_loop (prims : Primitives) (counter_share : GE)
    (sum_voted : List CandidateBallot) (parts : List CountingPartPair) :
    List String → Except WedprError Bool
  | [] => .ok true
  | candidate :: rest => do
    let candidate_ballot := find_last_ballot candidate sum_voted
    let candidate_c2_sum ← bytes_to_point candidate_ballot.ciphertext2
    let counting_part := find_last_part candidate parts
    let candidate_c2_r ← bytes_to_point counting_part.c2_r
    let candidate_equality_proof ← bytes_to_proto counting_part.equality_proof
    if !prims.verify_equality_relationship_proof counter_share candidate_c2_r
        candidate_equality_proof BASEPOINT_G2 candidate_c2_sum then
      .ok false
    else
      count_loop prims counter_share sum_voted parts rest

/-- Embedding of `verify_count_request` (verifier.rs lines 191-246): check
the blank slot first (decoding the tally's blank `c2`, the submitted blank
`c2_r` and its equality proof, in source order), then every configured
candidate in order via `count_loop`; a failing equality proof yields
`Ok(false)`. -/
def verify_count_request (prims : Primitives) (param : SystemParametersStorage)
    (encrypted_vote_sum : VoteStorage) (counter_share : GE)
    (request : DecryptedResultPartStorage) : Except WedprError Bool := do
  let blank_c2_sum ← bytes_to_point encrypted_vote_sum.get_blank_ballot.ciphertext2
  let blank_c2_r ← bytes_to_point request.get_blank_part.c2_r
  let blank_equality_proof ← bytes_to_proto request.get_blank_part.equality_proof
  if !prims.verify_equality_relationship_proof counter_share blank_c2_r
      blank_equality_proof BASEPOINT_G2 blank_c2_sum then
    .ok false
  else
    count_loop prims counter_share encrypted_vote_sum.voted_ballot request.candidate_part
      param.get_candidates.candidate

/-- The Rust cast `value as u64` on an `i64` result value: wrapping
reduction modulo `2 ^ 64` (the scalar fed to `Scalar::from`). -/
def i64_as_u64 (v : Int) : Nat := (v % ((2 : Int) ^ 64)).toNat

/-- The candidate loop of `verify_vote_result` (verifier.rs lines
276-309): for every configured candidate, decode the last matching
tally ballot's `c1` and the last matching combined `c2_r` (decoded first,
as in the source), look up the disclosed value under the candidate's
identifier (default `0`), and compare `c1 - c2_r` against
`G1 * (value as u64)`; the first mismatch returns `Ok(false)`.  The
source tests this slot with `!(.eq)` where the blank slot uses `.ne`; both
are the same element-wise equality test. -/
def result_loop (sum_voted : List CandidateBallot) (parts : List CountingPartPair)
    (results : List ResultPair) : List String → Except WedprError Bool
  | [] => .ok true
  | candidate :: rest => do
    let ballot := find_last_ballot candidate sum_voted
    let candidate_counting_part := find_last_part candidate parts
    let candidate_c2_r_sum ← bytes_to_point candidate_counting_part.c2_r
    let c1 ← bytes_to_point ballot.ciphertext1
    let expected_candidate_ballot_result := c1 - candidate_c2_r_sum
    let get_candidate_result := find_last_value candidate results
    if expected_candidate_ballot_result =
        BASEPOINT_G1 * ((i64_as_u64 get_candidate_result : Nat) : GE) then
      result_loop sum_voted parts results rest
    else
      .ok false

/-- Embedding of `verify_vote_result` (verifier.rs lines 251-311): check
the blank slot (tally blank `c1` minus combined blank `c2_r` against the
value disclosed under the reserved key `"Wedpr_voting_total_ballots"`,
default `0`, scaled onto `BASEPOINT_G1` through the `as u64` cast), then
every configured candidate in order via `result_loop`; the first mismatch
returns `Ok(false)`. -/
def verify_vote_result (param : SystemParametersStorage) (vote_sum : VoteStorage)
    (counting_result_sum : DecryptedResultPartStorage)
    (vote_result_request : VoteResultStorage) : Except WedprError Bool := do
  let blank_c1_sum ← bytes_to_point vote_sum.get_blank_ballot.ciphertext1
  let blank_c2_r_sum ← bytes_to_point counting_result_sum.get_blank_part.c2_r
  let expected_blank_ballot_result := blank_c1_sum - blank_c2_r_sum
  let get_blank_result := find_last_value "Wedpr_voting_total_ballots" vote_result_request.result
  if expected_blank_ballot_result ≠
      BASEPOINT_G1 * ((i64_as_u64 get_blank_result : Nat) : GE) then
    .ok false
  else
    result_loop vote_sum.voted_ballot counting_result_sum.candidate_part
      vote_result_request.result param.get_candidates.candidate

@[simp]
theorem ok_bind {α β : Type} (a : α) (f : α → Except WedprError β) :
    (Except.ok a >>= f) = f a := rfl

@[simp]
theorem error_bind {α β : Type} (e : WedprError) (f : α → Except WedprError β) :
    ((Except.error e : Except WedprError α) >>= f) = .error e := rfl

@[simp]
theorem bytes_to_point_enc (p : GE) : bytes_to_point (.enc p) = .ok p := rfl

@[simp]
theorem bytes_to_point_empty : bytes_to_point .empty = .error .FormatError := rfl

@[simp]
theorem bytes_to_point_bad (t : Nat) : bytes_to_point (.bad t) = .error .FormatError := rfl

@[simp]
theorem bytes_to_proto_enc {α : Type} (a : α) : bytes_to_proto (.enc a) = .ok a := rfl

@[simp]
theorem bytes_to_proto_bad {α : Type} : bytes_to_proto (.bad : PrBytes α) = .error .DecodeError := rfl

theorem decodable_iff {b : PtBytes} : decodable b = true ↔ ∃ p, b = .enc p := by
  cases b <;> simp [decodable]

theorem bytes_to_point_of_decodable {b : PtBytes} (h : decodable b = true) :
    bytes_to_point b = .ok (decP b) := by
  cases b <;> simp_all [decodable, decP]

theorem log2_fuel_spec (f : Nat) : ∀ m, 1 ≤ m → m < 2 ^ f →
    2 ^ log2_fuel f m ≤ m ∧ m < 2 ^ (log2_fuel f m + 1) := by
  induction f with
  | zero => intro m h1 h2; omega
  | succ f ih =>
    intro m h1 h2
    by_cases h : 2 ≤ m
    · have hd1 : 1 ≤ m / 2 := by omega
      have hd2 : m / 2 < 2 ^ f := by
        have : (2 : Nat) ^ (f + 1) = 2 * 2 ^ f := by ring
        omega
      have := ih (m / 2) hd1 hd2
      have e1 : (2 : Nat) ^ (log2_fuel f (m / 2) + 1) = 2 * 2 ^ log2_fuel f (m / 2) := by ring
      have e2 : (2 : Nat) ^ (log2_fuel f (m / 2) + 1 + 1) =
          2 * 2 ^ (log2_fuel f (m / 2) + 1) := by ring
      simp only [log2_fuel, if_pos h]
      omega
    · simp only [log2_fuel, if_neg h]
      omega

theorem ceil_log2_ge (n : Nat) : n ≤ 2 ^ ceil_log2 n := by
  by_cases h : n ≤ 1
  · simp only [ceil_log2, if_pos h]; omega
  · have h1 : 1 ≤ n - 1 := by omega
    have h2 : n - 1 < 2 ^ n := by
      have := Nat.lt_two_pow n
      omega
    have := log2_fuel_spec n (n - 1) h1 h2
    simp only [ceil_log2, if_neg h]
    omega

theorem ceil_log2_le (n m : Nat) (h : n ≤ 2 ^ m) : ceil_log2 n ≤ m := by
  by_cases h1 : n ≤ 1
  · simp [ceil_log2, h1]
  · have ha : 1 ≤ n - 1 := by omega
    have hb : n - 1 < 2 ^ n := by
      have := Nat.lt_two_pow n
      omega
    have hs := log2_fuel_spec n (n - 1) ha hb
    simp only [ceil_log2, if_neg h1]
    by_contra hc
    have hm : m ≤ log2_fuel n (n - 1) := by omega
    have : (2 : Nat) ^ m ≤ 2 ^ log2_fuel n (n - 1) :=
      Nat.pow_le_pow_right (by omega) hm
    omega

theorem pending_commitment_vec_eq_append (v : List GE) :
    pending_commitment_vec v =
      v ++ List.replicate (2 ^ ceil_log2 v.length - v.length) (0 : GE) := by
  by_cases h : 2 ^ ceil_log2 v.length = v.length
  · simp [pending_commitment_vec, h]
  · simp [pending_commitment_vec, h]

theorem pending_commitment_vec_length (v : List GE) :
    (pending_commitment_vec v).length = 2 ^ ceil_log2 v.length := by
  rw [pending_commitment_vec_eq_append]
  have := ceil_log2_ge v.length
  simp
  omega

/-- C8: `pending_commitment_vec`, applied to any vector of group elements,
leaves the original elements unchanged in place and appends copies of the
group identity element until the length equals the least power of two
greater than or equal to the original length (target length 1 for original
length 0 or 1); it is a no-op when the length is already a power of two,
and it does not crash for length 0 or 1. -/
theorem pending_commitment_vec_spec (v : List GE) :
    (pending_commitment_vec v).take v.length = v ∧
    (∀ x ∈ (pending_commitment_vec v).drop v.length, x = 0) ∧
    (∃ k, (pending_commitment_vec v).length = 2 ^ k) ∧
    v.length ≤ (pending_commitment_vec v).length ∧
    (∀ m, v.length ≤ 2 ^ m → (pending_commitment_vec v).length ≤ 2 ^ m) ∧
    ((∃ k, v.length = 2 ^ k) → pending_commitment_vec v = v) ∧
    (v.length ≤ 1 → (pending_commitment_vec v).length = 1) := by
  refine ⟨?_, ?_, ⟨ceil_log2 v.length, pending_commitment_vec_length v⟩, ?_, ?_, ?_, ?_⟩
  · rw [pending_commitment_vec_eq_append]
    exact List.take_left v _
  · rw [pending_commitment_vec_eq_append]
    intro x hx
    rw [List.drop_left] at hx
    exact List.eq_of_mem_replicate hx
  · rw [pending_commitment_vec_length]
    exact ceil_log2_ge v.length
  · intro m hm
    rw [pending_commitment_vec_length]
    exact Nat.pow_le_pow_right (by omega) (ceil_log2_le v.length m hm)
  · rintro ⟨k, hk⟩
    have h1 : ceil_log2 v.length ≤ k := ceil_log2_le v.length k (le_of_eq hk)
    have h2 : k ≤ ceil_log2 v.length := by
      apply (Nat.pow_le_pow_iff_right (show 1 < 2 by omega)).mp
      calc (2 : Nat) ^ k = v.length := hk.symm
        _ ≤ 2 ^ ceil_log2 v.length := ceil_log2_ge v.length
    have hck : ceil_log2 v.length = k := le_antisymm h1 h2
    have hpow : 2 ^ ceil_log2 v.length = v.length := by rw [hck, hk]
    simp [pending_commitment_vec, hpow]
  · intro h
    rw [pending_commitment_vec_length]
    interval_cases h : v.length <;> rfl

/-- Witness for C8: the padding theorem applied at concrete inputs, with
the bound, power-of-two no-op and short-length hypotheses discharged. -/
theorem pending_commitment_vec_spec_witness :
    (pending_commitment_vec [(1 : GE), 2, 3]).length ≤ 2 ^ 2 ∧
    pending_commitment_vec [(1 : GE), 2] = [1, 2] ∧
    (pending_commitment_vec ([] : List GE)).length = 1 :=
  ⟨(pending_commitment_vec_spec [(1 : GE), 2, 3]).2.2.2.2.1 2 (by decide),
   (pending_commitment_vec_spec [(1 : GE), 2]).2.2.2.2.2.1 ⟨1, rfl⟩,
   (pending_commitment_vec_spec ([] : List GE)).2.2.2.2.2.2 (by decide)⟩

/-- Sample primitive assignment whose oracles accept everything (used to
build concrete witnesses for theorems quantified over `Primitives`). -/
def prims_all_true : Primitives :=
  ⟨fun _ => [], fun _ _ _ => true, fun _ _ _ => true,
   fun _ _ _ _ _ _ => true, fun _ _ _ _ _ _ => true, fun _ _ _ _ _ => true⟩

/-- Sample system parameters: one configured candidate `"A"`, poll point
encoded from the group element `5`. -/
def sample_param : SystemParametersStorage := ⟨⟨["A"]⟩, .enc 5⟩

/-- Sample vote request: a well-formed submission voting for the
configured candidate `"A"`, with a proof entry for `"A"`. -/
def sample_request : VoteRequest :=
  ⟨⟨[7], some ⟨.enc 10, .enc 11⟩, some ⟨.enc 3, .enc 4⟩, [⟨"A", ⟨.enc 1, .enc 2⟩⟩]⟩,
   [], [⟨"A", .enc {}⟩], .enc {}⟩

/-- C1: `verify_bounded_vote_request` performs exactly four checks in
order — signature over the blank ballot, batched range proof over the
voted ballots' `c1` plus the rest ballot's `c1` (padded), one format proof
per supplied candidate proof entry, and the sum-relationship (balance)
proof — short-circuiting on the first failure; it returns `Ok(true)` if
and only if all four checks pass, and any single proof-verification
failure returns `Err(VerificationError)`, never a silent pass (in
particular it never returns `Ok(false)`). -/
theorem verify_bounded_vote_request_four_checks
    (prims : Primitives) (param : SystemParametersStorage) (request : VoteRequest)
    (public_key : Bytes) (poll_point : GE)
    (hpoll : bytes_to_point param.poll_point = .ok poll_point) :
    (verify_bounded_vote_request prims param request public_key = .ok true ↔
      (sig_check prims request public_key = true ∧
       range_check prims poll_point request = .ok true ∧
       format_loop prims poll_point request.vote.voted_ballot request.ballot_proof = .ok () ∧
       balance_check prims poll_point request = .ok true)) ∧
    (∀ b, verify_bounded_vote_request prims param request public_key = .ok b → b = true) ∧
    (sig_check prims request public_key = false →
      verify_bounded_vote_request prims param request public_key = .error .VerificationError) ∧
    (sig_check prims request public_key = true →
      range_check prims poll_point request = .ok false →
      verify_bounded_vote_request prims param request public_key = .error .VerificationError) ∧
    (sig_check prims request public_key = true →
      range_check prims poll_point request = .ok true →
      format_loop prims poll_point request.vote.voted_ballot request.ballot_proof =
        .error .VerificationError →
      verify_bounded_vote_request prims param request public_key = .error .VerificationError) ∧
    (sig_check prims request public_key = true →
      range_check prims poll_point request = .ok true →
      format_loop prims poll_point request.vote.voted_ballot request.ballot_proof = .ok () →
      balance_check prims poll_point request = .ok false →
      verify_bounded_vote_request prims param request public_key = .error .VerificationError) := by
  unfold verify_bounded_vote_request sig_check range_check balance_check
  rw [hpoll]
  cases hsig : prims.sig_verify public_key
      (prims.hash (request.vote.get_blank_ballot.ciphertext1,
        request.vote.get_blank_ballot.ciphertext2)) request.vote.signature
  · simp [hsig]
  · cases hcol : collect_commitments request.vote.voted_ballot [] 0 with
    | error e => simp [hsig, hcol]
    | ok pr =>
      obtain ⟨cs, vsum⟩ := pr
      cases hrest : bytes_to_point request.vote.get_rest_ballot.ciphertext1 with
      | error e => simp [hsig, hcol, hrest]
      | ok rest =>
        cases hrb : prims.verify_value_range_in_batch
            (pending_commitment_vec (cs ++ [rest])) request.range_proof poll_point
        · simp [hsig, hcol, hrest, hrb]
        · cases hfl : format_loop prims poll_point request.vote.voted_ballot
              request.ballot_proof with
          | error e => simp [hsig, hcol, hrest, hrb, hfl]
          | ok u =>
            cases u
            cases hbp : bytes_to_proto request.sum_balance_proof with
            | error e => simp [hsig, hcol, hrest, hrb, hfl, hbp]
            | ok bp =>
              cases hblank : bytes_to_point request.vote.get_blank_ballot.ciphertext1 with
              | error e => simp [hsig, hcol, hrest, hrb, hfl, hbp, hblank]
              | ok blank1 =>
                cases hsr : prims.verify_sum_relationship vsum rest blank1 bp
                    BASEPOINT_G1 poll_point
                · simp [hsig, hcol, hrest, hrb, hfl, hbp, hblank, hsr]
                · simp [hsig, hcol, hrest, hrb, hfl, hbp, hblank, hsr]

/-- Witness for C1: the four-check theorem applied at a concrete
accepting request (poll-point hypothesis discharged, all four stage
conditions discharged concretely through the iff). -/
theorem verify_bounded_vote_request_four_checks_witness :
    verify_bounded_vote_request prims_all_true sample_param sample_request [] = .ok true :=
  ((verify_bounded_vote_request_four_checks prims_all_true sample_param sample_request []
      5 (by decide)).1).mpr ⟨by decide, by decide, by decide, by decide⟩

theorem except_bind_ok {α β : Type} (x : Except WedprError α) (f : α → Except WedprError β)
    (b : β) : (x >>= f) = .ok b ↔ ∃ a, x = .ok a ∧ f a = .ok b := by
  cases x <;> simp

theorem decodable_of_bytes_to_point_ok {b : PtBytes} {p : GE}
    (h : bytes_to_point b = .ok p) : decodable b = true := by
  cases b <;> simp_all [bytes_to_point, decodable]

theorem find_last_ballot_of_not_mem {c : String} {l : List CandidateBallot}
    (h : ∀ p ∈ l, p.candidate ≠ c) : find_last_ballot c l = Ballot.new := by
  unfold find_last_ballot
  induction l with
  | nil => rfl
  | cons p rest ih =>
    have hp : (p.candidate == c) = false := by
      have := h p (List.mem_cons_self p rest)
      simp [this]
    simp only [List.foldl_cons, hp, Bool.false_eq_true, if_false]
    exact ih (fun q hq => h q (List.mem_cons_of_mem p hq))

theorem find_last_part_of_not_mem {c : String} {l : List CountingPartPair}
    (h : ∀ p ∈ l, p.key ≠ c) : find_last_part c l = CountingPart.new := by
  unfold find_last_part
  induction l with
  | nil => rfl
  | cons p rest ih =>
    have hp : (p.key == c) = false := by
      have := h p (List.mem_cons_self p rest)
      simp [this]
    simp only [List.foldl_cons, hp, Bool.false_eq_true, if_false]
    exact ih (fun q hq => h q (List.mem_cons_of_mem p hq))

theorem foldl_find_ballot_map (c : String) (l : List String) (f : String → Ballot)
    (a : Ballot) :
    List.foldl (fun acc p => if p.candidate == c then p.ballot else acc) a
      (l.map fun x => (⟨x, f x⟩ : CandidateBallot)) = if c ∈ l then f c else a := by
  induction l generalizing a with
  | nil => simp
  | cons x xs ih =>
    simp only [List.map_cons, List.foldl_cons, ih]
    by_cases hmem : c ∈ xs
    · simp [hmem]
    · by_cases hx : x = c
      · simp [hmem, hx]
      · have hbeq : (x == c) = false := by simp [hx]
        have hnotin : c ∉ x :: xs := by
          simp only [List.mem_cons]
          rintro (h | h)
          · exact hx h.symm
          · exact hmem h
        simp [hbeq, ih, hmem, hnotin]

theorem find_last_ballot_map (c : String) (l : List String) (f : String → Ballot) :
    find_last_ballot c (l.map fun x => (⟨x, f x⟩ : CandidateBallot)) =
      if c ∈ l then f c else Ballot.new :=
  foldl_find_ballot_map c l f Ballot.new

/-- Sample vote request whose voted-ballot list references candidate
`"X"`, which is not in `sample_param`'s configured candidate set. -/
def sample_request_outside : VoteRequest :=
  ⟨⟨[7], some ⟨.enc 10, .enc 11⟩, some ⟨.enc 3, .enc 4⟩, [⟨"X", ⟨.enc 1, .enc 2⟩⟩]⟩,
   [], [], .enc {}⟩

/-- Counterexample to C7 as stated: a concrete request whose voted-ballot
list references candidate `"X"`, outside the configured candidate set
`["A"]`, on which `verify_bounded_vote_request` nevertheless returns
`Ok(true)` (under primitives that accept every proof, which the
orchestration cannot rule out: it never consults the candidate set). -/
theorem verify_bounded_vote_request_accepts_outside_candidate :
    verify_bounded_vote_request prims_all_true sample_param sample_request_outside [] =
      .ok true ∧
    sample_request_outside.vote.voted_ballot.map CandidateBallot.candidate = ["X"] ∧
    "X" ∉ sample_param.get_candidates.candidate := by
  refine ⟨by decide, by decide, by decide⟩

/-- C7 amended: `verify_bounded_vote_request` does not consult the
configured candidate set at all — its result is identical for any two
candidate lists sharing the same poll point — so membership of the voted
candidates in the `SystemParameters` candidate set is not enforced by this
function (it is a caller-side data invariant, not a verifier check). -/
theorem verify_bounded_vote_request_ignores_candidate_set
    (prims : Primitives) (request : VoteRequest) (public_key : Bytes)
    (pp : PtBytes) (cl cl' : CandidateList) :
    verify_bounded_vote_request prims ⟨cl, pp⟩ request public_key =
      verify_bounded_vote_request prims ⟨cl', pp⟩ request public_key := rfl

/-- C9: `verify_vote_result` converts each disclosed `i64` result value to
a scalar via a wrapping cast to `u64`: for a disclosed negative value `v`
the comparison scalar is `v mod 2^64 = 2^64 + v`, so a slot point equal to
`(2^64 + v) · G1` verifies `true` with the negative disclosed value `v`
instead of being rejected. -/
theorem verify_vote_result_wrapping_cast (v : Int)
    (h1 : -(2 ^ 63) ≤ v) (h2 : v < 0) :
    i64_as_u64 v = ((2 : Int) ^ 64 + v).toNat ∧
    verify_vote_result ⟨⟨[]⟩, .enc 5⟩
      ⟨[], some ⟨.enc (BASEPOINT_G1 * ((((2 : Int) ^ 64 + v).toNat : Nat) : GE)), .enc 0⟩,
        none, []⟩
      ⟨some ⟨.enc 0, .enc {}⟩, []⟩
      ⟨[⟨"Wedpr_voting_total_ballots", v⟩]⟩ = .ok true := by
  have hcast : i64_as_u64 v = ((2 : Int) ^ 64 + v).toNat := by
    unfold i64_as_u64
    omega
  refine ⟨hcast, ?_⟩
  unfold verify_vote_result
  simp [VoteStorage.get_blank_ballot, DecryptedResultPartStorage.get_blank_part,
    SystemParametersStorage.get_candidates, find_last_value, result_loop, hcast]

/-- Witness for C9: the wrapping-cast theorem applied at the concrete
disclosed value `-1`, whose slot point `(2^64 - 1) · G1` verifies. -/
theorem verify_vote_result_wrapping_cast_witness :
    i64_as_u64 (-1) = ((2 : Int) ^ 64 + (-1)).toNat ∧
    verify_vote_result ⟨⟨[]⟩, .enc 5⟩
      ⟨[], some ⟨.enc (BASEPOINT_G1 * ((((2 : Int) ^ 64 + (-1)).toNat : Nat) : GE)), .enc 0⟩,
        none, []⟩
      ⟨some ⟨.enc 0, .enc {}⟩, []⟩
      ⟨[⟨"Wedpr_voting_total_ballots", -1⟩]⟩ = .ok true :=
  verify_vote_result_wrapping_cast (-1) (by norm_num) (by norm_num)

theorem agg_loop_ok_candidates (sv pv : List CandidateBallot) :
    ∀ (l : List String) (out : List CandidateBallot),
    agg_loop sv pv l = .ok out → out.map CandidateBallot.candidate = l := by
  intro l
  induction l with
  | nil =>
    intro out h
    simp only [agg_loop, Except.ok.injEq] at h
    subst h
    rfl
  | cons c cs ih =>
    intro out h
    simp only [agg_loop, except_bind_ok, Except.ok.injEq] at h
    obtain ⟨p1, h1, p2, h2, p3, h3, p4, h4, tl, htl, hout⟩ := h
    subst hout
    simp only [List.map_cons, ih tl htl]

theorem aggregate_body_ok_voted {param : SystemParametersStorage}
    {part vs tmp : VoteStorage} (h : aggregate_body param part vs = .ok tmp) :
    ∃ out, agg_loop vs.voted_ballot part.voted_ballot param.get_candidates.candidate =
      .ok out ∧ tmp.voted_ballot = out := by
  simp only [aggregate_body, except_bind_ok, Except.ok.injEq] at h
  obtain ⟨b1, h1, b2, h2, b3, h3, b4, h4, out, hout, htmp⟩ := h
  subst htmp
  exact ⟨out, hout, rfl⟩

/-- Sample incoming ballot for the configured candidate `"A"`. -/
def sample_ballot1 : VoteStorage :=
  ⟨[], some ⟨.enc 1, .enc 2⟩, none, [⟨"A", ⟨.enc 3, .enc 4⟩⟩]⟩

/-- Second sample incoming ballot for the configured candidate `"A"`. -/
def sample_ballot2 : VoteStorage :=
  ⟨[], some ⟨.enc 5, .enc 6⟩, none, [⟨"A", ⟨.enc 7, .enc 8⟩⟩]⟩

/-- C6: after every successful call to `aggregate_vote_sum_response` the
running tally contains exactly one `CandidateBallot` per configured
candidate, in the configured order, and no others (the candidate
identifiers of the tally's voted-ballot list are exactly the configured
list, so no entry is ever duplicated when the configured names are
distinct; the slots are created on the first aggregation into a tally
without a blank ballot by the lazy initialization). -/
theorem aggregate_tally_slot_list (param : SystemParametersStorage)
    (part sum : VoteStorage)
    (h : (aggregate_vote_sum_response param part sum).1 = .ok true) :
    ((aggregate_vote_sum_response param part sum).2).voted_ballot.map
      CandidateBallot.candidate = param.get_candidates.candidate := by
  simp only [aggregate_vote_sum_response] at h ⊢
  cases hb : aggregate_body param part (lazy_init param sum) with
  | error e => rw [hb] at h; simp at h
  | ok tmp =>
    obtain ⟨out, hout, hv⟩ := aggregate_body_ok_voted hb
    simpa [hv] using agg_loop_ok_candidates _ _ _ _ hout

/-- Witness for C6: a concrete successful aggregation whose resulting
tally holds exactly the configured slot list `["A"]`. -/
theorem aggregate_tally_slot_list_witness :
    ((aggregate_vote_sum_response sample_param sample_ballot1 VoteStorage.new).2).voted_ballot.map
      CandidateBallot.candidate = sample_param.get_candidates.candidate :=
  aggregate_tally_slot_list sample_param sample_ballot1 VoteStorage.new (by decide)

/-- Sample running tally that already has a blank ballot but no candidate
slots (so aggregation into it fails at the tally-side decode). -/
def sample_tally_blank_only : VoteStorage := ⟨[], some ⟨.enc 0, .enc 0⟩, none, []⟩

/-- C10: when the running tally already contains a blank ballot, every
error return of `aggregate_vote_sum_response` leaves the tally bitwise
unchanged (the sums are assembled in a temporary storage assigned only on
success); when the tally lacks a blank ballot, the lazy initialization
mutates it before any decode can fail, and a concrete failing aggregation
leaves behind the initialized-but-unaggregated tally. -/
theorem aggregate_error_preserves_tally :
    (∀ (param : SystemParametersStorage) (part sum : VoteStorage) (e : WedprError),
      sum.has_blank_ballot = true →
      (aggregate_vote_sum_response param part sum).1 = .error e →
      (aggregate_vote_sum_response param part sum).2 = sum) ∧
    ((aggregate_vote_sum_response sample_param VoteStorage.new VoteStorage.new).1 =
      .error .FormatError ∧
     (aggregate_vote_sum_response sample_param VoteStorage.new VoteStorage.new).2 ≠
      VoteStorage.new ∧
     (aggregate_vote_sum_response sample_param VoteStorage.new VoteStorage.new).2 =
      ⟨[], some ⟨.enc 0, .enc 0⟩, none, [⟨"A", ⟨.enc 0, .enc 0⟩⟩]⟩) := by
  constructor
  · intro param part sum e hblank herr
    have hinit : lazy_init param sum = sum := by
      unfold lazy_init
      simp [hblank]
    simp only [aggregate_vote_sum_response] at herr ⊢
    rw [hinit] at herr ⊢
    cases hb : aggregate_body param part sum with
    | ok tmp => rw [hb] at herr; simp at herr
    | error e2 => rfl
  · exact ⟨by decide, by decide, by decide⟩

/-- Witness for C10: the preservation half applied at a concrete tally
with a blank ballot, on which aggregation fails with a decode error and
the tally is returned unchanged. -/
theorem aggregate_error_preserves_tally_witness :
    (aggregate_vote_sum_response sample_param sample_ballot1 sample_tally_blank_only).2 =
      sample_tally_blank_only :=
  aggregate_error_preserves_tally.1 sample_param sample_ballot1 sample_tally_blank_only
    .FormatError (by decide) (by decide)

theorem count_loop_ok_parts_decodable (prims : Primitives) (share : GE)
    (sv : List CandidateBallot) (parts : List CountingPartPair) :
    ∀ l : List String, count_loop prims share sv parts l = .ok true →
    ∀ c ∈ l, decodable (find_last_part c parts).c2_r = true := by
  intro l
  induction l with
  | nil => intro h c hc; simp at hc
  | cons cand rest ih =>
    intro h c hc
    simp only [count_loop, except_bind_ok] at h
    obtain ⟨q1, h1, q2, h2, q3, h3, hif⟩ := h
    rcases List.mem_cons.mp hc with rfl | hmem
    · exact decodable_of_bytes_to_point_ok h2
    · cases horc : prims.verify_equality_relationship_proof share q2 q3 BASEPOINT_G2 q1 with
      | false => rw [horc] at hif; simp at hif
      | true =>
        rw [horc] at hif
        simp only [Bool.not_true, Bool.false_eq_true, if_false] at hif
        exact ih hif c hmem

/-- Sample aggregated tally used for count-request checks. -/
def sample_count_tally : VoteStorage :=
  ⟨[], some ⟨.enc 1, .enc 2⟩, none, [⟨"A", ⟨.enc 3, .enc 4⟩⟩]⟩

/-- Sample counting-authority submission with a valid blank part but no
entry for the configured candidate `"A"`. -/
def sample_count_request_missing : DecryptedResultPartStorage :=
  ⟨some ⟨.enc 9, .enc {}⟩, []⟩

/-- Counterexample to C2 as stated: a concrete count request with no
`CountingPart` for the configured candidate `"A"` makes
`verify_count_request` return `Err(FormatError)` — a decode error on the
default part's empty `c2_r` bytes — not `Ok(false)`. -/
theorem verify_count_request_missing_part_counterexample :
    verify_count_request prims_all_true sample_param sample_count_tally 1
      sample_count_request_missing = .error .FormatError ∧
    verify_count_request prims_all_true sample_param sample_count_tally 1
      sample_count_request_missing ≠ .ok false ∧
    sample_count_request_missing.candidate_part = [] ∧
    sample_param.get_candidates.candidate = ["A"] := by
  refine ⟨by decide, by decide, by decide, by decide⟩

/-- C2 amended: slots are checked blank first, then candidates in
configured order, stopping at the first failure; a configured candidate
with no matching entry in the submitted candidate parts is treated as
`CountingPart::default()`, but that default's empty `c2_r` bytes fail
point decoding, so the function returns `Err(FormatError)` for the first
such candidate (rather than `Ok(false)`), and success requires every
configured candidate to have decodable submitted `c2_r` bytes. -/
theorem verify_count_request_missing_part (prims : Primitives)
    (param : SystemParametersStorage) (sum : VoteStorage) (share : GE)
    (request : DecryptedResultPartStorage) :
    (verify_count_request prims param sum share request = .ok true →
      ∀ c ∈ param.get_candidates.candidate,
        decodable (find_last_part c request.candidate_part).c2_r = true) ∧
    (∀ (cand : String) (rest : List String) (pr : EqualityProof),
      param.get_candidates.candidate = cand :: rest →
      request.get_blank_part.equality_proof = .enc pr →
      decodable sum.get_blank_ballot.ciphertext2 = true →
      decodable request.get_blank_part.c2_r = true →
      prims.verify_equality_relationship_proof share (decP request.get_blank_part.c2_r) pr
        BASEPOINT_G2 (decP sum.get_blank_ballot.ciphertext2) = true →
      decodable (find_last_ballot cand sum.voted_ballot).ciphertext2 = true →
      (∀ p ∈ request.candidate_part, p.key ≠ cand) →
      verify_count_request prims param sum share request = .error .FormatError) := by
  constructor
  · intro h
    simp only [verify_count_request, except_bind_ok] at h
    obtain ⟨b1, h1, b2, h2, b3, h3, hif⟩ := h
    cases horc : prims.verify_equality_relationship_proof share b2 b3 BASEPOINT_G2 b1 with
    | false => rw [horc] at hif; simp at hif
    | true =>
      rw [horc] at hif
      simp only [Bool.not_true, Bool.false_eq_true, if_false] at hif
      exact count_loop_ok_parts_decodable prims share _ _ _ hif
  · intro cand rest pr hcands hpr hdec1 hdec2 horacle hslot hmissing
    unfold verify_count_request
    rw [bytes_to_point_of_decodable hdec1, bytes_to_point_of_decodable hdec2, hpr]
    simp only [ok_bind, bytes_to_proto_enc, horacle, Bool.not_true, Bool.false_eq_true,
      if_false]
    rw [hcands]
    simp only [count_loop]
    rw [bytes_to_point_of_decodable hslot]
    simp only [ok_bind]
    rw [find_last_part_of_not_mem hmissing]
    rfl

/-- Witness for C2's amended theorem: the missing-part half applied at the
concrete count request with no entry for `"A"`, all hypotheses discharged
concretely; the result is the decode error. -/
theorem verify_count_request_missing_part_witness :
    verify_count_request prims_all_true sample_param sample_count_tally 1
      sample_count_request_missing = .error .FormatError :=
  (verify_count_request_missing_part prims_all_true sample_param sample_count_tally 1
    sample_count_request_missing).2 "A" [] {} (by decide) (by decide) (by decide)
    (by decide) (by decide) (by decide) (by decide)

theorem agg_loop_ok_part_decodable (sv pv : List CandidateBallot) :
    ∀ (l : List String) (out : List CandidateBallot), agg_loop sv pv l = .ok out →
    ∀ c ∈ l, decodable (find_last_ballot c pv).ciphertext1 = true ∧
      decodable (find_last_ballot c pv).ciphertext2 = true := by
  intro l
  induction l with
  | nil => intro out h c hc; simp at hc
  | cons cand rest ih =>
    intro out h c hc
    simp only [agg_loop, except_bind_ok, Except.ok.injEq] at h
    obtain ⟨p1, h1, p2, h2, p3, h3, p4, h4, tl, htl, hout⟩ := h
    rcases List.mem_cons.mp hc with rfl | hmem
    · exact ⟨decodable_of_bytes_to_point_ok h3, decodable_of_bytes_to_point_ok h4⟩
    · exact ih tl htl c hmem

/-- Sample incoming ballot that omits the configured candidate `"A"`. -/
def sample_ballot_missing : VoteStorage := ⟨[], some ⟨.enc 1, .enc 1⟩, none, []⟩

/-- Counterexample to C3 as stated: aggregating a concrete `VoteStorage`
that omits the configured candidate `"A"` does not succeed as a no-op; it
fails with `Err(FormatError)`, because the missing candidate's default
ballot has empty ciphertext bytes that fail point decoding. -/
theorem aggregate_missing_candidate_counterexample :
    (aggregate_vote_sum_response sample_param sample_ballot_missing VoteStorage.new).1 =
      .error .FormatError ∧
    sample_ballot_missing.voted_ballot = [] ∧
    sample_param.get_candidates.candidate = ["A"] := by
  refine ⟨by decide, by decide, by decide⟩

/-- C3 amended: a configured candidate with no matching `CandidateBallot`
in the incoming ballot is not treated as the identity element —
`aggregate_vote_sum_response` succeeds only when, for every configured
candidate, the incoming side's matching ballot has decodable ciphertext
bytes; a candidate missing from the incoming ballot therefore makes the
aggregation fail (with a decode error) instead of leaving that candidate's
tally slot unchanged. -/
theorem aggregate_requires_all_candidates (param : SystemParametersStorage)
    (part sum : VoteStorage) :
    ((aggregate_vote_sum_response param part sum).1 = .ok true →
      ∀ c ∈ param.get_candidates.candidate,
        decodable (find_last_ballot c part.voted_ballot).ciphertext1 = true ∧
        decodable (find_last_ballot c part.voted_ballot).ciphertext2 = true) ∧
    (∀ c ∈ param.get_candidates.candidate,
      (∀ p ∈ part.voted_ballot, p.candidate ≠ c) →
      (aggregate_vote_sum_response param part sum).1 ≠ .ok true) := by
  have main : (aggregate_vote_sum_response param part sum).1 = .ok true →
      ∀ c ∈ param.get_candidates.candidate,
        decodable (find_last_ballot c part.voted_ballot).ciphertext1 = true ∧
        decodable (find_last_ballot c part.voted_ballot).ciphertext2 = true := by
    intro h
    simp only [aggregate_vote_sum_response] at h
    cases hb : aggregate_body param part (lazy_init param sum) with
    | error e => rw [hb] at h; simp at h
    | ok tmp =>
      obtain ⟨out, hout, hv⟩ := aggregate_body_ok_voted hb
      exact agg_loop_ok_part_decodable _ _ _ _ hout
  refine ⟨main, ?_⟩
  intro c hc hmiss habs
  have := (main habs c hc).1
  rw [find_last_ballot_of_not_mem hmiss] at this
  simp [Ballot.new, decodable] at this

/-- Witness for C3's amended theorem: applied at the concrete incoming
ballot omitting `"A"`, whose aggregation therefore cannot succeed. -/
theorem aggregate_requires_all_candidates_witness :
    (aggregate_vote_sum_response sample_param sample_ballot_missing VoteStorage.new).1 ≠
      .ok true :=
  (aggregate_requires_all_candidates sample_param sample_ballot_missing VoteStorage.new).2
    "A" (by decide) (by decide)

theorem result_loop_spec (sv : List CandidateBallot) (parts : List CountingPartPair)
    (results : List ResultPair) :
    ∀ l : List String,
    (∀ c ∈ l, decodable (find_last_ballot c sv).ciphertext1 = true ∧
      decodable (find_last_part c parts).c2_r = true) →
    (result_loop sv parts results l = .ok true ↔
      ∀ c ∈ l, decP (find_last_ballot c sv).ciphertext1 - decP (find_last_part c parts).c2_r =
        BASEPOINT_G1 * ((i64_as_u64 (find_last_value c results) : Nat) : GE)) := by
  intro l
  induction l with
  | nil => intro h; simp [result_loop]
  | cons cand rest ih =>
    intro h
    obtain ⟨hc1, hc2⟩ := h cand (List.mem_cons_self _ _)
    simp only [result_loop]
    rw [bytes_to_point_of_decodable hc2, bytes_to_point_of_decodable hc1]
    simp only [ok_bind]
    by_cases heq : decP (find_last_ballot cand sv).ciphertext1 -
        decP (find_last_part cand parts).c2_r =
        BASEPOINT_G1 * ((i64_as_u64 (find_last_value cand results) : Nat) : GE)
    · rw [if_pos heq, ih (fun c hc => h c (List.mem_cons_of_mem _ hc))]
      constructor
      · intro hall c hc
        rcases List.mem_cons.mp hc with rfl | hm
        · exact heq
        · exact hall c hm
      · intro hall c hc
        exact hall c (List.mem_cons_of_mem _ hc)
    · rw [if_neg heq]
      constructor
      · intro habs
        simp at habs
      · intro hall
        exact absurd (hall cand (List.mem_cons_self _ _)) heq

/-- Decode well-formedness of the inputs of `verify_vote_result`: the
tally blank `c1`, the combined blank `c2_r`, and for every configured
candidate the matching tally `c1` and combined `c2_r` all decode. -/
def result_inputs_wf (param : SystemParametersStorage) (vote_sum : VoteStorage)
    (counting : DecryptedResultPartStorage) : Prop :=
  decodable vote_sum.get_blank_ballot.ciphertext1 = true ∧
  decodable counting.get_blank_part.c2_r = true ∧
  ∀ c ∈ param.get_candidates.candidate,
    decodable (find_last_ballot c vote_sum.voted_ballot).ciphertext1 = true ∧
    decodable (find_last_part c counting.candidate_part).c2_r = true

/-- C4: on decodable inputs, `verify_vote_result` returns `Ok(true)` if
and only if the blank slot satisfies `tally.blank.c1 - combined.blank.c2_r
= value · G1` for the value disclosed under the reserved key
`"Wedpr_voting_total_ballots"` (default `0` when absent, cast as `u64`),
and every configured candidate's slot satisfies the same equation with the
value disclosed under the candidate identifier (default `0` when absent);
moreover a mismatching blank slot immediately yields `Ok(false)` with no
condition on the candidate slots. -/
theorem verify_vote_result_characterization (param : SystemParametersStorage)
    (vote_sum : VoteStorage) (counting : DecryptedResultPartStorage)
    (result : VoteResultStorage)
    (hwf : result_inputs_wf param vote_sum counting) :
    (verify_vote_result param vote_sum counting result = .ok true ↔
      (decP vote_sum.get_blank_ballot.ciphertext1 - decP counting.get_blank_part.c2_r =
        BASEPOINT_G1 *
          ((i64_as_u64 (find_last_value "Wedpr_voting_total_ballots" result.result) : Nat) : GE) ∧
       ∀ c ∈ param.get_candidates.candidate,
         decP (find_last_ballot c vote_sum.voted_ballot).ciphertext1 -
           decP (find_last_part c counting.candidate_part).c2_r =
           BASEPOINT_G1 * ((i64_as_u64 (find_last_value c result.result) : Nat) : GE))) ∧
    (decP vote_sum.get_blank_ballot.ciphertext1 - decP counting.get_blank_part.c2_r ≠
        BASEPOINT_G1 *
          ((i64_as_u64 (find_last_value "Wedpr_voting_total_ballots" result.result) : Nat) : GE) →
      verify_vote_result param vote_sum counting result = .ok false) := by
  obtain ⟨hw1, hw2, hw3⟩ := hwf
  unfold verify_vote_result
  rw [bytes_to_point_of_decodable hw1, bytes_to_point_of_decodable hw2]
  simp only [ok_bind]
  by_cases hblank : decP vote_sum.get_blank_ballot.ciphertext1 -
      decP counting.get_blank_part.c2_r =
      BASEPOINT_G1 *
        ((i64_as_u64 (find_last_value "Wedpr_voting_total_ballots" result.result) : Nat) : GE)
  · rw [if_neg (fun hcon => hcon hblank)]
    constructor
    · rw [result_loop_spec _ _ _ _ hw3]
      constructor
      · intro hall
        exact ⟨hblank, hall⟩
      · intro hand
        exact hand.2
    · intro habs
      exact absurd hblank habs
  · rw [if_pos hblank]
    constructor
    · constructor
      · intro habs
        simp at habs
      · intro hand
        exact absurd hand.1 hblank
    · intro _
      rfl

/-- Sample aggregated tally for the result check: blank slot `3 · G1`,
candidate `"A"` slot `2 · G1`. -/
def sample_result_tally : VoteStorage :=
  ⟨[], some ⟨.enc 3, .enc 0⟩, none, [⟨"A", ⟨.enc 2, .enc 0⟩⟩]⟩

/-- Sample combined decryption for the result check (all `c2_r` zero). -/
def sample_result_parts : DecryptedResultPartStorage :=
  ⟨some ⟨.enc 0, .enc {}⟩, [⟨"A", ⟨.enc 0, .enc {}⟩⟩]⟩

/-- Sample disclosed result: 3 total ballots, 2 votes for `"A"`. -/
def sample_result_disclosed : VoteResultStorage :=
  ⟨[⟨"Wedpr_voting_total_ballots", 3⟩, ⟨"A", 2⟩]⟩

/-- Witness for C4: the characterization applied at concrete matching
inputs, with the well-formedness and both slot equations discharged
concretely through the iff. -/
theorem verify_vote_result_characterization_witness :
    verify_vote_result sample_param sample_result_tally sample_result_parts
      sample_result_disclosed = .ok true :=
  ((verify_vote_result_characterization sample_param sample_result_tally
      sample_result_parts sample_result_disclosed
      ⟨by decide, by decide, by decide⟩).1).mpr ⟨by decide, by decide⟩

/-- Shape of a tally produced by the aggregator: default signature, encoded
blank pair, no rest ballot, and one slot per configured candidate (in
configured order) holding encoded values given by `f` and `g`. -/
def mk_tally (param : SystemParametersStorage) (b1 b2 : GE) (f g : String → GE) :
    VoteStorage :=
  ⟨[], some ⟨.enc b1, .enc b2⟩, none,
   param.get_candidates.candidate.map
     fun c => (⟨c, ⟨.enc (f c), .enc (g c)⟩⟩ : CandidateBallot)⟩

/-- Well-formedness of an incoming ballot for aggregation: the blank
ballot and, for every configured candidate, the matching voted ballot all
have decodable ciphertext bytes. -/
def wf_ballot (param : SystemParametersStorage) (b : VoteStorage) : Prop :=
  decodable b.get_blank_ballot.ciphertext1 = true ∧
  decodable b.get_blank_ballot.ciphertext2 = true ∧
  ∀ c ∈ param.get_candidates.candidate,
    decodable (find_last_ballot c b.voted_ballot).ciphertext1 = true ∧
    decodable (find_last_ballot c b.voted_ballot).ciphertext2 = true

theorem find_last_ballot_mk_tally (param : SystemParametersStorage) (b1 b2 : GE)
    (f g : String → GE) (c : String) (hc : c ∈ param.get_candidates.candidate) :
    find_last_ballot c (mk_tally param b1 b2 f g).voted_ballot = ⟨.enc (f c), .enc (g c)⟩ := by
  have := find_last_ballot_map c param.get_candidates.candidate
    (fun x => (⟨.enc (f x), .enc (g x)⟩ : Ballot))
  simp only [mk_tally]
  rw [this, if_pos hc]

theorem agg_loop_mk_tally (param : SystemParametersStorage) (b1 b2 : GE)
    (f g : String → GE) (pv : List CandidateBallot) :
    ∀ l : List String, (∀ c ∈ l, c ∈ param.get_candidates.candidate) →
    (∀ c ∈ l, decodable (find_last_ballot c pv).ciphertext1 = true ∧
      decodable (find_last_ballot c pv).ciphertext2 = true) →
    agg_loop (mk_tally param b1 b2 f g).voted_ballot pv l =
      .ok (l.map fun c => (⟨c,
        ⟨.enc (f c + decP (find_last_ballot c pv).ciphertext1),
         .enc (g c + decP (find_last_ballot c pv).ciphertext2)⟩⟩ : CandidateBallot)) := by
  intro l
  induction l with
  | nil => intro _ _; rfl
  | cons c cs ih =>
    intro hsub hwfp
    obtain ⟨hp1, hp2⟩ := hwfp c (List.mem_cons_self _ _)
    simp only [agg_loop]
    rw [find_last_ballot_mk_tally param b1 b2 f g c (hsub c (List.mem_cons_self _ _))]
    simp only [bytes_to_point_enc, ok_bind]
    rw [bytes_to_point_of_decodable hp1, bytes_to_point_of_decodable hp2]
    simp only [ok_bind]
    rw [ih (fun x hx => hsub x (List.mem_cons_of_mem _ hx))
      (fun x hx => hwfp x (List.mem_cons_of_mem _ hx))]
    simp only [ok_bind, List.map_cons, point_to_bytes]

theorem lazy_init_mk_tally (param : SystemParametersStorage) (b1 b2 : GE)
    (f g : String → GE) :
    lazy_init param (mk_tally param b1 b2 f g) = mk_tally param b1 b2 f g := by
  unfold lazy_init mk_tally VoteStorage.has_blank_ballot
  simp

theorem aggregate_mk_tally (param : SystemParametersStorage) (part : VoteStorage)
    (b1 b2 : GE) (f g : String → GE) (hwf : wf_ballot param part) :
    aggregate_vote_sum_response param part (mk_tally param b1 b2 f g) =
      (.ok true,
       mk_tally param (b1 + decP part.get_blank_ballot.ciphertext1)
         (b2 + decP part.get_blank_ballot.ciphertext2)
         (fun c => f c + decP (find_last_ballot c part.voted_ballot).ciphertext1)
         (fun c => g c + decP (find_last_ballot c part.voted_ballot).ciphertext2)) := by
  obtain ⟨hb1, hb2, hcands⟩ := hwf
  have hbody : aggregate_body param part (mk_tally param b1 b2 f g) =
      .ok (mk_tally param (b1 + decP part.get_blank_ballot.ciphertext1)
        (b2 + decP part.get_blank_ballot.ciphertext2)
        (fun c => f c + decP (find_last_ballot c part.voted_ballot).ciphertext1)
        (fun c => g c + decP (find_last_ballot c part.voted_ballot).ciphertext2)) := by
    simp only [aggregate_body]
    have hblank : (mk_tally param b1 b2 f g).get_blank_ballot = ⟨.enc b1, .enc b2⟩ := rfl
    rw [hblank]
    simp only [bytes_to_point_enc, ok_bind]
    rw [bytes_to_point_of_decodable hb1, bytes_to_point_of_decodable hb2]
    simp only [ok_bind]
    rw [agg_loop_mk_tally param b1 b2 f g part.voted_ballot
      param.get_candidates.candidate (fun c hc => hc) hcands]
    simp only [ok_bind]
    rfl
  simp only [aggregate_vote_sum_response, lazy_init_mk_tally, hbody]

theorem aggregate_fresh_tally (param : SystemParametersStorage) (part : VoteStorage)
    (hwf : wf_ballot param part) :
    aggregate_vote_sum_response param part VoteStorage.new =
      (.ok true,
       mk_tally param (0 + decP part.get_blank_ballot.ciphertext1)
         (0 + decP part.get_blank_ballot.ciphertext2)
         (fun c => 0 + decP (find_last_ballot c part.voted_ballot).ciphertext1)
         (fun c => 0 + decP (find_last_ballot c part.voted_ballot).ciphertext2)) := by
  have hinit : lazy_init param VoteStorage.new =
      mk_tally param 0 0 (fun _ => 0) (fun _ => 0) := by
    unfold lazy_init VoteStorage.new mk_tally VoteStorage.has_blank_ballot point_to_bytes
    simp
  have hsame : aggregate_vote_sum_response param part VoteStorage.new =
      aggregate_vote_sum_response param part (mk_tally param 0 0 (fun _ => 0) (fun _ => 0)) := by
    simp only [aggregate_vote_sum_response, hinit, lazy_init_mk_tally]
  rw [hsame, aggregate_mk_tally param part 0 0 _ _ hwf]

/-- C5: aggregation is commutative — for any two well-formed ballots
`b1`, `b2` and a fresh (empty) tally, aggregating `b1` then `b2` yields a
tally bitwise identical (after canonical point encoding) to aggregating
`b2` then `b1`, for both the `c1` and `c2` components of the blank ballot
and of every configured candidate's ballot; both aggregation orders
succeed. -/
theorem aggregate_commutative (param : SystemParametersStorage) (b1 b2 : VoteStorage)
    (h1 : wf_ballot param b1) (h2 : wf_ballot param b2) :
    (aggregate_vote_sum_response param b2
      (aggregate_vote_sum_response param b1 VoteStorage.new).2).2 =
      (aggregate_vote_sum_response param b1
        (aggregate_vote_sum_response param b2 VoteStorage.new).2).2 ∧
    (aggregate_vote_sum_response param b2
      (aggregate_vote_sum_response param b1 VoteStorage.new).2).1 = .ok true ∧
    (aggregate_vote_sum_response param b1
      (aggregate_vote_sum_response param b2 VoteStorage.new).2).1 = .ok true := by
  rw [aggregate_fresh_tally param b1 h1, aggregate_fresh_tally param b2 h2]
  dsimp only
  rw [aggregate_mk_tally param b2 _ _ _ _ h2, aggregate_mk_tally param b1 _ _ _ _ h1]
  refine ⟨?_, rfl, rfl⟩
  dsimp only
  unfold mk_tally
  congr 1
  · simp only [Option.some.injEq, Ballot.mk.injEq, PtBytes.enc.injEq]
    constructor <;> ring
  · apply List.map_congr_left
    intro c hc
    simp only [CandidateBallot.mk.injEq, Ballot.mk.injEq, PtBytes.enc.injEq]
    refine ⟨?_, ?_, ?_⟩
    · trivial
    · ring
    · ring

/-- Witness for C5: the commutativity theorem applied at two concrete
well-formed ballots for the configured candidate `"A"`. -/
theorem aggregate_commutative_witness :
    (aggregate_vote_sum_response sample_param sample_ballot2
      (aggregate_vote_sum_response sample_param sample_ballot1 VoteStorage.new).2).2 =
      (aggregate_vote_sum_response sample_param sample_ballot1
        (aggregate_vote_sum_response sample_param sample_ballot2 VoteStorage.new).2).2 :=
  (aggregate_commutative sample_param sample_ballot1 sample_ballot2
    ⟨by decide, by decide, by decide⟩ ⟨by decide, by decide, by decide⟩).1
